import Mathlib

/-!
# Verification of the batch file processor (process_batch.py)

A shallow embedding of `src/backend/python-scripts/process_batch.py`.

Modelling conventions:
* The filesystem is a map from path to optional text content (`FS`).
  Reading a missing path models the caught I/O exception (empty string).
  Writing updates the map at the output filename.
* Python dictionaries returned by the script become Lean structures whose
  optional keys are `Option` fields (`none` = key absent from the dict).
* External effects that the script merely consumes are parameters of an
  `Env` record: availability of the scientific Python dependencies, the
  external TF-IDF vectorizer (a black box that either yields a vector or
  raises, matching the try/except around it), Python's randomized string
  `hash`, JSON serialization of the artifact, and the wall clock.
* Elapsed wall-clock time is an input (`total_time`), since `time.time()`
  is external to the program logic.
-/

namespace BatchProcessor

/-- Filesystem model: a path maps to its text content when the file exists. -/
def FS : Type := String → Option String

/-- Pointwise update of the filesystem, models writing a file. -/
def updateFS (fs : FS) (p : String) (c : String) : FS :=
  fun q => if q = p then some c else fs q

/-- Result dictionary of `vectorize_content`.  `none` fields model keys
absent from the Python dict. -/
structure VecResult where
  success : Bool
  error : Option String
  vector : Option (List Rat)
  vector_size : Option Nat
  vector_type : Option String
deriving Repr, DecidableEq

/-- Result dictionary of `process_file`. -/
structure FileResult where
  success : Bool
  error : Option String
  language : Option String
  output_file : Option String
  vector : Option (List Rat)
  vector_size : Option Nat
  vector_type : Option String
deriving Repr, DecidableEq

/-- The on-disk artifact `vector_data` assembled by `process_file`. -/
structure VectorData where
  file : String
  language : String
  timestamp : Rat
  vectorization : VecResult
deriving Repr, DecidableEq

/-- External environment of the script: dependency availability, the
external vectorization library, Python's string hash, JSON encoding and
the current time. -/
structure Env where
  depsAvailable : Bool
  realVectorize : String → Except String (List Rat)
  pyHash : String → Int
  jsonEncode : VectorData → String
  now : Rat

/-- First-match association-list lookup, modelling `dict.get` on the
(duplicate-free) language table. -/
def lookupTable : List (String × String) → String → Option String
  | [], _ => none
  | (k, v) :: rest, e => if e = k then some v else lookupTable rest e

/-- The fixed extension table of `detect_language`, transcribed verbatim. -/
def language_map : List (String × String) :=
  [ (".js", "javascript"),
    (".jsx", "jsx"),
    (".ts", "typescript"),
    (".tsx", "tsx"),
    (".py", "python"),
    (".java", "java"),
    (".c", "c"),
    (".cpp", "cpp"),
    (".h", "c"),
    (".hpp", "cpp"),
    (".cs", "csharp"),
    (".go", "go"),
    (".rb", "ruby"),
    (".php", "php"),
    (".swift", "swift"),
    (".kt", "kotlin"),
    (".rs", "rust"),
    (".html", "html"),
    (".css", "css"),
    (".scss", "scss"),
    (".json", "json"),
    (".md", "markdown"),
    (".xml", "xml"),
    (".yaml", "yaml"),
    (".yml", "yaml"),
    (".sh", "shell"),
    (".bat", "batch"),
    (".ps1", "powershell") ]

/-- `os.path.basename`: the suffix of the path after the last slash. -/
def basenameOf (p : String) : String :=
  ⟨(p.toList.reverse.takeWhile (fun c => c ≠ '/')).reverse⟩

/-- The extension part of `os.path.splitext`: the suffix of the basename
from its last dot, provided some non-dot character of the basename
precedes that dot (so dotfiles such as `.bashrc` have no extension). -/
def extOf (p : String) : String :=
  let b := (p.toList.reverse.takeWhile (fun c => c ≠ '/')).reverse
  let rest := b.dropWhile (fun c => c = '.')
  if rest.contains '.' then
    ⟨'.' :: (b.reverse.takeWhile (fun c => c ≠ '.')).reverse⟩
  else ""

/-- `str.lower()`, character by character (ASCII case folding, which
agrees with Python on every extension of the table). -/
def strToLower (s : String) : String := ⟨s.toList.map Char.toLower⟩

/-- `detect_language`: look the lower-cased extension up in the fixed
table, defaulting to `"unknown"`. -/
def detect_language (file_path : String) : String :=
  let ext := strToLower (extOf file_path)
  (lookupTable language_map ext).getD "unknown"

/-- `f.read(n)`: the first `n` characters of the content. -/
def strTake (s : String) (n : Nat) : String := ⟨s.toList.take n⟩

/-- `read_file_content`: return the whole content, truncated to
`max_size` when the file is larger; any I/O failure (in particular a
missing file) is caught and yields the empty string. -/
def read_file_content (fs : FS) (file_path : String) (max_size : Nat) : String :=
  match fs file_path with
  | none => ""
  | some content =>
      if content.length > max_size then strTake content max_size
      else content

/-- `vectorize_content`: the fixed mock record when the scientific
dependencies are unavailable; otherwise the external TF-IDF vectorizer,
whose exceptions are caught into an error record. -/
def vectorize_content (env : Env) (content : String) (_file_path : String) : VecResult :=
  if env.depsAvailable = false then
    { success := true, error := none, vector := none,
      vector_size := some 100, vector_type := some "mock" }
  else
    match env.realVectorize content with
    | Except.ok v =>
        { success := true, error := none, vector := some v,
          vector_size := some v.length, vector_type := some "tfidf" }
    | Except.error e =>
        { success := false, error := some e, vector := none,
          vector_size := none, vector_type := none }

/-- Returning a `VecResult` verbatim as the result of `process_file`
(the `return vector_result` statement). -/
def vecToFileResult (v : VecResult) : FileResult :=
  { success := v.success, error := v.error, language := none,
    output_file := none, vector := v.vector,
    vector_size := v.vector_size, vector_type := v.vector_type }

/-- `process_file`: existence check, language detection, bounded read,
vectorization, artifact write.  Returns the per-file result together with
the filesystem after the (possible) artifact write. -/
def process_file (env : Env) (fs : FS) (file_path output_dir : String) :
    FileResult × FS :=
  if (fs file_path).isNone then
    ({ success := false, error := some ("File not found: " ++ file_path),
       language := none, output_file := none, vector := none,
       vector_size := none, vector_type := none }, fs)
  else
    let language := detect_language file_path
    let content := read_file_content fs file_path (1024 * 1024)
    if content = "" then
      ({ success := false, error := some "Empty or unreadable file",
         language := none, output_file := none, vector := none,
         vector_size := none, vector_type := none }, fs)
    else
      let vector_result := vectorize_content env content file_path
      if vector_result.success = false then
        (vecToFileResult vector_result, fs)
      else
        let file_basename := basenameOf file_path
        let vector_data : VectorData :=
          { file := file_path, language := language,
            timestamp := env.now, vectorization := vector_result }
        let output_filename :=
          output_dir ++ "/" ++ toString (env.pyHash file_path % (10000 : Int))
            ++ "_" ++ file_basename ++ ".vec.json"
        let fs2 := updateFS fs output_filename (env.jsonEncode vector_data)
        ({ success := true, error := none, language := some language,
           output_file := some output_filename, vector := none,
           vector_size := none, vector_type := none }, fs2)

/-- The batch summary dictionary returned by `process_batch`; optional
fields model keys present only on some return paths. -/
structure BatchSummary where
  success : Bool
  message : String
  files_processed : Nat
  files_failed : Option Nat
  vectors_created : Option Nat
  languages_detected : Option (List String)
  processing_time : Rat
  files_per_second : Option Rat
deriving Repr, DecidableEq

/-- Accumulator of the per-file loop in `process_batch`. -/
structure LoopState where
  results : List FileResult
  processed_count : Nat
  failed_count : Nat
  languages_detected : List String
  fs : FS

/-- `set.add`: insert a language if not already present. -/
def setAdd (s : List String) (x : String) : List String :=
  if x ∈ s then s else s ++ [x]

/-- The `for file_path in files` loop of `process_batch`: one
`process_file` invocation per path, accumulating results, the two
counters and the language set. -/
def processLoop (env : Env) (output_dir : String) :
    LoopState → List String → LoopState
  | st, [] => st
  | st, file_path :: rest =>
      let pr := process_file env st.fs file_path output_dir
      let result := pr.1
      let st2 : LoopState :=
        if result.success then
          { results := st.results ++ [result],
            processed_count := st.processed_count + 1,
            failed_count := st.failed_count,
            languages_detected :=
              setAdd st.languages_detected (result.language.getD "unknown"),
            fs := pr.2 }
        else
          { results := st.results ++ [result],
            processed_count := st.processed_count,
            failed_count := st.failed_count + 1,
            languages_detected := st.languages_detected,
            fs := pr.2 }
      processLoop env output_dir st2 rest

/-- `process_batch`.  `load` is the outcome of opening and JSON-parsing
the manifest and taking `batch_data.get("files", [])` (an `error` models
the exception caught by the outer `try`, e.g. a missing or malformed
manifest); `total_time` is the measured elapsed wall-clock time.
Returns the summary, the final filesystem and the `results` list. -/
def process_batch (env : Env) (fs : FS) (output_dir : String)
    (load : Except String (List String)) (total_time : Rat) :
    BatchSummary × FS × List FileResult :=
  match load with
  | Except.error e =>
      ({ success := false, message := "Batch processing error: " ++ e,
         files_processed := 0, files_failed := none, vectors_created := none,
         languages_detected := none, processing_time := total_time,
         files_per_second := none }, fs, [])
  | Except.ok files =>
      if files = [] then
        ({ success := false, message := "No files in batch",
           files_processed := 0, files_failed := none, vectors_created := none,
           languages_detected := none, processing_time := total_time,
           files_per_second := none }, fs, [])
      else
        let st := processLoop env output_dir
          { results := [], processed_count := 0, failed_count := 0,
            languages_detected := [], fs := fs } files
        ({ success := true,
           message := "Processed " ++ toString st.processed_count
             ++ " files, " ++ toString st.failed_count ++ " failed",
           files_processed := st.processed_count,
           files_failed := some st.failed_count,
           vectors_created := some st.processed_count,
           languages_detected := some st.languages_detected,
           processing_time := total_time,
           files_per_second :=
             some (if 0 < total_time
                   then (st.processed_count : Rat) / total_time else 0) },
         st.fs, st.results)

/-- `main`: fail with exit code 1 when the manifest file does not exist,
otherwise run `process_batch`, print its summary (the `Option
BatchSummary` component models standard output) and exit 0 on success,
1 otherwise. -/
def main (env : Env) (fs : FS) (batch_file_exists : Bool)
    (output_dir : String) (load : Except String (List String))
    (total_time : Rat) : Nat × Option BatchSummary × FS :=
  if batch_file_exists = false then (1, none, fs)
  else
    let pb := process_batch env fs output_dir load total_time
    ((if pb.1.success then 0 else 1), some pb.1, pb.2.1)

/-- Spec-side description of the loop body: invoke `process_file` exactly
once per manifest path, threading the filesystem through the calls. -/
def invocationResults (env : Env) (output_dir : String) :
    FS → List String → List FileResult
  | _, [] => []
  | fs, p :: rest =>
      let pr := process_file env fs p output_dir
      pr.1 :: invocationResults env output_dir pr.2 rest

/-- A concrete environment with the scientific dependencies absent. -/
def env0 : Env :=
  { depsAvailable := false, realVectorize := fun _ => Except.error "",
    pyHash := fun _ => 0, jsonEncode := fun _ => "", now := 0 }

/-- A concrete environment whose vectorizer always raises. -/
def env1 : Env :=
  { depsAvailable := true, realVectorize := fun _ => Except.error "boom",
    pyHash := fun _ => 0, jsonEncode := fun _ => "", now := 0 }

/-- The empty filesystem. -/
def fs0 : FS := fun _ => none

/-- A filesystem with one empty file and one non-empty file. -/
def fs1 : FS :=
  fun p => if p = "e.py" then some "" else if p = "a.py" then some "x" else none

/-- A filesystem with one three-character file. -/
def fs2 : FS := fun p => if p = "b.txt" then some "abc" else none

/-! ## Helper lemmas -/

theorem lookupTable_eq_some_of_mem :
    ∀ {l : List (String × String)}, (l.map Prod.fst).Nodup →
      ∀ {k v : String}, (k, v) ∈ l → lookupTable l k = some v := by
  intro l
  induction l with
  | nil => intro _ k v h; simp at h
  | cons a tl ih =>
      intro hnd k v h
      obtain ⟨a1, a2⟩ := a
      simp only [List.map_cons, List.nodup_cons] at hnd
      rcases List.mem_cons.mp h with hhd | htl
      · injection hhd with h1 h2
        subst h1; subst h2
        simp [lookupTable]
      · have hk : k ≠ a1 := by
          rintro rfl
          exact hnd.1 (List.mem_map.mpr ⟨(k, v), htl, rfl⟩)
        simp only [lookupTable, if_neg hk]
        exact ih hnd.2 htl

theorem lookupTable_eq_none_of_not_mem :
    ∀ {l : List (String × String)} {k : String},
      k ∉ l.map Prod.fst → lookupTable l k = none := by
  intro l
  induction l with
  | nil => intro k _; rfl
  | cons a tl ih =>
      intro k hk
      obtain ⟨a1, a2⟩ := a
      simp only [List.map_cons, List.mem_cons, not_or] at hk
      simp only [lookupTable, if_neg hk.1]
      exact ih hk.2

theorem mem_setAdd {s : List String} {x l : String} (h : l ∈ setAdd s x) :
    l ∈ s ∨ l = x := by
  unfold setAdd at h
  split at h
  · exact Or.inl h
  · rcases List.mem_append.mp h with h | h
    · exact Or.inl h
    · exact Or.inr (List.mem_singleton.mp h)

theorem process_file_cases (env : Env) (fs : FS) (p out : String) :
    (process_file env fs p out).1.success = false ∨
      ((process_file env fs p out).1.success = true ∧
        (process_file env fs p out).1.language = some (detect_language p)) := by
  simp only [process_file]
  split
  · exact Or.inl rfl
  · split
    · exact Or.inl rfl
    · split
      · rename_i hvr
        exact Or.inl (by simp [vecToFileResult, hvr])
      · exact Or.inr ⟨rfl, rfl⟩

theorem process_file_success_language (env : Env) (fs : FS) (p out : String)
    (h : (process_file env fs p out).1.success = true) :
    (process_file env fs p out).1.language = some (detect_language p) := by
  rcases process_file_cases env fs p out with h0 | ⟨_, h1⟩
  · rw [h0] at h; exact Bool.noConfusion h
  · exact h1

theorem process_file_write_or_fail (env : Env) (fs : FS) (p out : String) :
    (process_file env fs p out).1.success = true ∨
      (process_file env fs p out).2 = fs := by
  simp only [process_file]
  split
  · exact Or.inr rfl
  · split
    · exact Or.inr rfl
    · split
      · exact Or.inr rfl
      · exact Or.inl rfl

theorem invocationResults_length (env : Env) (out : String) :
    ∀ (files : List String) (fs : FS),
      (invocationResults env out fs files).length = files.length := by
  intro files
  induction files with
  | nil => intro fs; rfl
  | cons p rest ih => intro fs; simp [invocationResults, ih]

theorem processLoop_results (env : Env) (out : String) (files : List String) :
    ∀ st : LoopState,
      (processLoop env out st files).results
        = st.results ++ invocationResults env out st.fs files := by
  induction files with
  | nil => intro st; simp [processLoop, invocationResults]
  | cons p rest ih =>
      intro st
      simp only [processLoop, invocationResults]
      by_cases hs : (process_file env st.fs p out).1.success = true
      · rw [if_pos hs, ih]
        simp
      · rw [if_neg hs, ih]
        simp

theorem processLoop_counts (env : Env) (out : String) (files : List String) :
    ∀ st : LoopState,
      (processLoop env out st files).processed_count
          + (processLoop env out st files).failed_count
        = st.processed_count + st.failed_count + files.length := by
  induction files with
  | nil => intro st; simp [processLoop]
  | cons p rest ih =>
      intro st
      simp only [processLoop]
      by_cases hs : (process_file env st.fs p out).1.success = true
      · rw [if_pos hs, ih]
        simp only [List.length_cons]
        omega
      · rw [if_neg hs, ih]
        simp only [List.length_cons]
        omega

theorem processLoop_langs (env : Env) (out : String) (files : List String) :
    ∀ st : LoopState, ∀ l ∈ (processLoop env out st files).languages_detected,
      l ∈ st.languages_detected ∨
        ∃ r ∈ invocationResults env out st.fs files,
          r.success = true ∧ r.language = some l := by
  induction files with
  | nil =>
      intro st l hl
      simp only [processLoop] at hl
      exact Or.inl hl
  | cons p rest ih =>
      intro st l hl
      simp only [processLoop] at hl
      simp only [invocationResults]
      by_cases hs : (process_file env st.fs p out).1.success = true
      · rw [if_pos hs] at hl
        rcases ih _ l hl with hmem | ⟨r, hr, hr1, hr2⟩
        · simp only [] at hmem
          rcases mem_setAdd hmem with hmem | rfl
          · exact Or.inl hmem
          · refine Or.inr ⟨(process_file env st.fs p out).1, List.mem_cons_self _ _, hs, ?_⟩
            rw [process_file_success_language env st.fs p out hs]
            rfl
        · exact Or.inr ⟨r, List.mem_cons_of_mem _ hr, hr1, hr2⟩
      · rw [if_neg hs] at hl
        rcases ih _ l hl with hmem | ⟨r, hr, hr1, hr2⟩
        · exact Or.inl hmem
        · exact Or.inr ⟨r, List.mem_cons_of_mem _ hr, hr1, hr2⟩

/-! ## Claim theorems -/

/-- C1 (counterexample): at a concrete empty manifest the summary's
`success` flag is `false`, not `true` as the claim states — the code
returns `{"success": False, "message": "No files in batch", ...}`. -/
theorem c1_empty_manifest_success_counterexample :
    (process_batch env0 fs0 "out" (Except.ok []) 0).1.success = false := rfl

/-- C1 (amended): for every manifest whose files list is empty,
`process_batch` returns a summary with `files_processed = 0` and
`success = false` (message "No files in batch"), `process_file` is never
invoked (the results list is empty) and the filesystem is unchanged. -/
theorem c1_process_batch_empty_manifest (env : Env) (fs : FS) (out : String)
    (t : Rat) :
    process_batch env fs out (Except.ok []) t =
      ({ success := false, message := "No files in batch",
         files_processed := 0, files_failed := none, vectors_created := none,
         languages_detected := none, processing_time := t,
         files_per_second := none }, fs, []) := rfl

/-- C3: for every file on the filesystem, `read_file_content` returns the
content truncated to exactly `max_size` characters when the file is larger
than `max_size`, and the whole content otherwise. -/
theorem c3_read_file_content_spec (fs : FS) (p c : String) (m : Nat)
    (h : fs p = some c) :
    (c.length > m →
        read_file_content fs p m = strTake c m ∧
          (read_file_content fs p m).length = m) ∧
    (c.length ≤ m → read_file_content fs p m = c) := by
  constructor
  · intro hgt
    have hdef : read_file_content fs p m = strTake c m := by
      unfold read_file_content
      rw [h]
      simp [hgt]
    refine ⟨hdef, ?_⟩
    rw [hdef]
    show (c.toList.take m).length = m
    rw [List.length_take]
    have hc : c.toList.length = c.length := rfl
    omega
  · intro hle
    unfold read_file_content
    rw [h]
    have : ¬ (c.length > m) := not_lt.mpr hle
    simp [this]

/-- C3 witness: a three-character file read with limits 2 and 5. -/
theorem c3_read_file_content_spec_witness :
    (read_file_content fs2 "b.txt" 2 = strTake "abc" 2 ∧
      (read_file_content fs2 "b.txt" 2).length = 2) ∧
    read_file_content fs2 "b.txt" 5 = "abc" :=
  ⟨(c3_read_file_content_spec fs2 "b.txt" "abc" 2 rfl).1 (by decide),
   (c3_read_file_content_spec fs2 "b.txt" "abc" 5 rfl).2 (by decide)⟩

/-- C4: `detect_language` returns the label mapped to the path's
lower-cased extension when that extension is in the fixed table, and
`"unknown"` for any extension not among the table's keys. -/
theorem c4_detect_language_table_spec (p : String) :
    (∀ v, (strToLower (extOf p), v) ∈ language_map → detect_language p = v) ∧
    (strToLower (extOf p) ∉ language_map.map Prod.fst →
      detect_language p = "unknown") := by
  constructor
  · intro v hv
    have hnd : (language_map.map Prod.fst).Nodup := by decide
    simp only [detect_language]
    rw [lookupTable_eq_some_of_mem hnd hv]
    rfl
  · intro hnone
    simp only [detect_language]
    rw [lookupTable_eq_none_of_not_mem hnone]
    rfl

/-- C4 witness: an upper-cased known extension and an unknown one. -/
theorem c4_detect_language_table_spec_witness :
    detect_language "x.PY" = "python" ∧ detect_language "x.zig" = "unknown" :=
  ⟨(c4_detect_language_table_spec "x.PY").1 "python" (by decide),
   (c4_detect_language_table_spec "x.zig").2 (by decide)⟩

/-- C5: when the scientific dependencies are unavailable,
`vectorize_content` returns, for every content and path, exactly the
fixed record `{success := true, vector_size := 100, vector_type :=
"mock"}` with no `vector` key. -/
theorem c5_vectorize_content_mock_spec (env : Env)
    (h : env.depsAvailable = false) (content file_path : String) :
    vectorize_content env content file_path =
      { success := true, error := none, vector := none,
        vector_size := some 100, vector_type := some "mock" } := by
  unfold vectorize_content
  rw [h]
  simp

/-- C5 witness: the mock environment on a concrete content and path. -/
theorem c5_vectorize_content_mock_spec_witness :
    vectorize_content env0 "print(1)" "a.py" =
      { success := true, error := none, vector := none,
        vector_size := some 100, vector_type := some "mock" } :=
  c5_vectorize_content_mock_spec env0 rfl "print(1)" "a.py"

/-- C2: for every non-empty manifest list of N paths, the batch results
are exactly one `process_file` invocation per path (in order, threading
the filesystem), `files_processed + files_failed = N`, and every entry of
`languages_detected` is the language of some successful result. -/
theorem c2_process_batch_manifest_invariants (env : Env) (fs : FS)
    (out : String) (files : List String) (t : Rat) (hne : files ≠ []) :
    (process_batch env fs out (Except.ok files) t).2.2
        = invocationResults env out fs files ∧
    (process_batch env fs out (Except.ok files) t).2.2.length = files.length ∧
    (∃ k, (process_batch env fs out (Except.ok files) t).1.files_failed = some k ∧
      (process_batch env fs out (Except.ok files) t).1.files_processed + k
        = files.length) ∧
    (∃ langs,
      (process_batch env fs out (Except.ok files) t).1.languages_detected
          = some langs ∧
      ∀ l ∈ langs, ∃ r ∈ (process_batch env fs out (Except.ok files) t).2.2,
        r.success = true ∧ r.language = some l) := by
  simp only [process_batch, if_neg hne]
  have hres := processLoop_results env out files
    { results := [], processed_count := 0, failed_count := 0,
      languages_detected := [], fs := fs }
  have hcnt := processLoop_counts env out files
    { results := [], processed_count := 0, failed_count := 0,
      languages_detected := [], fs := fs }
  have hlng := processLoop_langs env out files
    { results := [], processed_count := 0, failed_count := 0,
      languages_detected := [], fs := fs }
  refine ⟨?_, ?_, ?_, ?_⟩
  · simpa using hres
  · rw [hres]
    simp [invocationResults_length]
  · refine ⟨_, rfl, ?_⟩
    simpa using hcnt
  · refine ⟨_, rfl, ?_⟩
    intro l hl
    rcases hlng l hl with hmem | ⟨r, hr, hr1, hr2⟩
    · simp at hmem
    · refine ⟨r, ?_, hr1, hr2⟩
      rw [hres]
      simpa using hr

/-- C2 witness: a one-file manifest over the empty filesystem. -/
theorem c2_process_batch_manifest_invariants_witness :
    (process_batch env0 fs0 "out" (Except.ok ["w.py"]) 0).2.2
        = invocationResults env0 "out" fs0 ["w.py"] ∧
    (process_batch env0 fs0 "out" (Except.ok ["w.py"]) 0).2.2.length
        = (["w.py"] : List String).length ∧
    (∃ k, (process_batch env0 fs0 "out" (Except.ok ["w.py"]) 0).1.files_failed
          = some k ∧
      (process_batch env0 fs0 "out" (Except.ok ["w.py"]) 0).1.files_processed + k
        = (["w.py"] : List String).length) ∧
    (∃ langs,
      (process_batch env0 fs0 "out" (Except.ok ["w.py"]) 0).1.languages_detected
          = some langs ∧
      ∀ l ∈ langs,
        ∃ r ∈ (process_batch env0 fs0 "out" (Except.ok ["w.py"]) 0).2.2,
          r.success = true ∧ r.language = some l) :=
  c2_process_batch_manifest_invariants env0 fs0 "out" ["w.py"] 0 (by simp)

/-- C6: in every successful batch summary, `files_per_second` is present,
never negative, equals 0 when the elapsed time is 0, and equals
`files_processed / total_time` when the elapsed time is positive (the
division is guarded by `0 < total_time`). -/
theorem c6_files_per_second_spec (env : Env) (fs : FS) (out : String)
    (load : Except String (List String)) (t : Rat)
    (h : (process_batch env fs out load t).1.success = true) :
    ∃ fps, (process_batch env fs out load t).1.files_per_second = some fps ∧
      0 ≤ fps ∧ (t = 0 → fps = 0) ∧
      (0 < t → fps =
        ((process_batch env fs out load t).1.files_processed : Rat) / t) := by
  match load with
  | Except.error e => simp [process_batch] at h
  | Except.ok files =>
      by_cases hf : files = []
      · rw [hf] at h
        simp [process_batch] at h
      · simp only [process_batch, if_neg hf]
        refine ⟨_, rfl, ?_, ?_, ?_⟩
        · split
          · exact div_nonneg (Nat.cast_nonneg _) (le_of_lt (by assumption))
          · exact le_refl 0
        · intro ht0
          rw [ht0]
          simp
        · intro htp
          rw [if_pos htp]

/-- C6 witness: a one-file batch with elapsed time 1. -/
theorem c6_files_per_second_spec_witness :
    ∃ fps, (process_batch env0 fs0 "out" (Except.ok ["m.py"]) 1).1.files_per_second
          = some fps ∧
      0 ≤ fps ∧ ((1 : Rat) = 0 → fps = 0) ∧
      ((0 : Rat) < 1 → fps =
        ((process_batch env0 fs0 "out" (Except.ok ["m.py"]) 1).1.files_processed : Rat)
          / 1) :=
  c6_files_per_second_spec env0 fs0 "out" (Except.ok ["m.py"]) 1 (by rfl)

/-- C7: `main` exits with code 1, prints nothing and leaves the
filesystem untouched when the manifest file does not exist (the Batch
Orchestrator is never run); otherwise it prints the batch summary and
exits 0 when the summary's success flag is true, else 1. -/
theorem c7_main_exit_spec (env : Env) (fs : FS) (ex : Bool) (out : String)
    (load : Except String (List String)) (t : Rat) :
    (ex = false → main env fs ex out load t = (1, none, fs)) ∧
    (ex = true → main env fs ex out load t =
      ((if (process_batch env fs out load t).1.success then 0 else 1),
       some (process_batch env fs out load t).1,
       (process_batch env fs out load t).2.1)) := by
  constructor
  · intro h
    simp [main, h]
  · intro h
    simp [main, h]

/-- C7 witness: both branches of the entry point at concrete inputs. -/
theorem c7_main_exit_spec_witness :
    main env0 fs0 false "out" (Except.ok []) 0 = (1, none, fs0) ∧
    main env0 fs0 true "out" (Except.ok []) 0 =
      ((if (process_batch env0 fs0 "out" (Except.ok []) 0).1.success then 0 else 1),
       some (process_batch env0 fs0 "out" (Except.ok []) 0).1,
       (process_batch env0 fs0 "out" (Except.ok []) 0).2.1) :=
  ⟨(c7_main_exit_spec env0 fs0 false "out" (Except.ok []) 0).1 rfl,
   (c7_main_exit_spec env0 fs0 true "out" (Except.ok []) 0).2 rfl⟩

/-- C8: `process_file` returns `success = false` with error
`"File not found: <path>"` for a missing path, `success = false` with
error `"Empty or unreadable file"` whenever the read content is empty,
and the vectorizer's error result unchanged on a vectorization failure;
in all three cases the filesystem is returned untouched (the embedding is
total, so no exception can escape). -/
theorem c8_process_file_error_spec (env : Env) (fs : FS) (p out : String) :
    (fs p = none →
      process_file env fs p out =
        ({ success := false, error := some ("File not found: " ++ p),
           language := none, output_file := none, vector := none,
           vector_size := none, vector_type := none }, fs)) ∧
    ((fs p).isSome = true → read_file_content fs p (1024 * 1024) = "" →
      process_file env fs p out =
        ({ success := false, error := some "Empty or unreadable file",
           language := none, output_file := none, vector := none,
           vector_size := none, vector_type := none }, fs)) ∧
    ((fs p).isSome = true → read_file_content fs p (1024 * 1024) ≠ "" →
      (vectorize_content env (read_file_content fs p (1024 * 1024)) p).success
          = false →
      process_file env fs p out =
        (vecToFileResult
          (vectorize_content env (read_file_content fs p (1024 * 1024)) p),
         fs)) := by
  refine ⟨?_, ?_, ?_⟩
  · intro h
    simp [process_file, h]
  · intro h1 h2
    have hn : (fs p).isNone = false := by
      rw [Option.isNone_eq_false_iff, Option.isSome_iff_ne_none] at *
      exact h1
    simp [process_file, hn, h2]
  · intro h1 h2 h3
    have hn : (fs p).isNone = false := by
      rw [Option.isNone_eq_false_iff, Option.isSome_iff_ne_none] at *
      exact h1
    simp [process_file, hn, h2, h3]

/-- C8 witness: a missing file, an empty file and a file whose
vectorization raises. -/
theorem c8_process_file_error_spec_witness :
    process_file env1 fs0 "m.py" "out" =
      ({ success := false, error := some ("File not found: " ++ "m.py"),
         language := none, output_file := none, vector := none,
         vector_size := none, vector_type := none }, fs0) ∧
    process_file env1 fs1 "e.py" "out" =
      ({ success := false, error := some "Empty or unreadable file",
         language := none, output_file := none, vector := none,
         vector_size := none, vector_type := none }, fs1) ∧
    process_file env1 fs1 "a.py" "out" =
      (vecToFileResult
        (vectorize_content env1 (read_file_content fs1 "a.py" (1024 * 1024))
          "a.py"),
       fs1) :=
  ⟨(c8_process_file_error_spec env1 fs0 "m.py" "out").1 rfl,
   (c8_process_file_error_spec env1 fs1 "e.py" "out").2.1 rfl rfl,
   (c8_process_file_error_spec env1 fs1 "a.py" "out").2.2 rfl
     (by decide) rfl⟩

/-- C9: in every successful batch summary, `vectors_created` equals
`files_processed`. -/
theorem c9_vectors_created_eq_processed (env : Env) (fs : FS) (out : String)
    (load : Except String (List String)) (t : Rat)
    (h : (process_batch env fs out load t).1.success = true) :
    (process_batch env fs out load t).1.vectors_created
      = some ((process_batch env fs out load t).1.files_processed) := by
  match load with
  | Except.error e => simp [process_batch] at h
  | Except.ok files =>
      by_cases hf : files = []
      · rw [hf] at h
        simp [process_batch] at h
      · simp only [process_batch, if_neg hf]

/-- C9 witness: a one-file successful batch. -/
theorem c9_vectors_created_eq_processed_witness :
    (process_batch env0 fs0 "out" (Except.ok ["v.py"]) 1).1.vectors_created
      = some ((process_batch env0 fs0 "out" (Except.ok ["v.py"]) 1).1.files_processed) :=
  c9_vectors_created_eq_processed env0 fs0 "out" (Except.ok ["v.py"]) 1 (by rfl)

/-- C10: whenever `process_file` returns a failure result, the
filesystem is unchanged: no output artifact is written. -/
theorem c10_process_file_no_write_on_failure (env : Env) (fs : FS)
    (p out : String) (h : (process_file env fs p out).1.success = false) :
    (process_file env fs p out).2 = fs := by
  rcases process_file_write_or_fail env fs p out with hs | hw
  · rw [hs] at h
    exact Bool.noConfusion h
  · exact hw

/-- C10 witness: a missing file leaves the filesystem untouched. -/
theorem c10_process_file_no_write_on_failure_witness :
    (process_file env0 fs0 "n.py" "out").2 = fs0 :=
  c10_process_file_no_write_on_failure env0 fs0 "n.py" "out" rfl

end BatchProcessor
